import Mathlib

/-!
Verification development for the immudb authenticated key-value store
repository.  The repository sources at hand are `pkg/database/dboptions.go`
(database instance options) and the server test-suite; the store and server
operations themselves (`Set`, `Get`, `Inclusion`, `Consistency`,
`Reference`, `ZAdd`, `History`, ...) are exercised by those tests but their
implementation is not part of the provided sources, so they are modelled
here from the specification (spec.md §3, §4, §6, §7, §8).
-/

namespace Immudb

/-! ## DbOptions — embedded from `pkg/database/dboptions.go`

`store.Options` lives in the external `embedded/store` package, so it is
kept abstract as a type parameter `σ`; `store.DefaultOptions()` becomes the
parameter `storeDefault`.  Go zero values initialise the fields that
`DefaultOption` does not mention: `false` for `bool`, `""` for `string`,
`0` for `int`. -/

structure DbOptions (σ : Type) where
  dbName : String
  dbRootPath : String
  storeOpts : σ
  corruptionChecker : Bool
  replica : Bool
  srcDBName : String
  srcDBAddress : String
  srcDBPort : Int

/-- `DefaultOption` from dboptions.go: sets `dbRootPath`, `dbName` and
`storeOpts`; every other field keeps its Go zero value. -/
def DefaultOption {σ : Type} (storeDefault : σ) : DbOptions σ :=
  { dbName := "db_name"
    dbRootPath := "./data"
    storeOpts := storeDefault
    corruptionChecker := false
    replica := false
    srcDBName := ""
    srcDBAddress := ""
    srcDBPort := 0 }

namespace DbOptions

variable {σ : Type}

/-- `WithDbName` sets dbName (in-place pointer mutation in Go, modelled as
returning the updated record). -/
def WithDbName (o : DbOptions σ) (dbName : String) : DbOptions σ :=
  { o with dbName := dbName }

/-- `GetDbName` returns the database name. -/
def GetDbName (o : DbOptions σ) : String := o.dbName

/-- `WithDbRootPath` sets the directory in which this database resides. -/
def WithDbRootPath (o : DbOptions σ) (Path : String) : DbOptions σ :=
  { o with dbRootPath := Path }

/-- `GetDbRootPath` returns the directory in which this database resides. -/
def GetDbRootPath (o : DbOptions σ) : String := o.dbRootPath

/-- `WithCorruptionChecker` sets whether the corruption checker starts. -/
def WithCorruptionChecker (o : DbOptions σ) (cc : Bool) : DbOptions σ :=
  { o with corruptionChecker := cc }

/-- `GetCorruptionChecker` returns whether the corruption checker starts. -/
def GetCorruptionChecker (o : DbOptions σ) : Bool := o.corruptionChecker

/-- `WithStoreOptions` sets backing store options. -/
def WithStoreOptions (o : DbOptions σ) (storeOpts : σ) : DbOptions σ :=
  { o with storeOpts := storeOpts }

/-- `GetStoreOptions` returns backing store options. -/
def GetStoreOptions (o : DbOptions σ) : σ := o.storeOpts

/-- `AsReplica` sets whether the database is a replica. -/
def AsReplica (o : DbOptions σ) (replica : Bool) : DbOptions σ :=
  { o with replica := replica }

/-- `WithSrcDBName` sets the source database name. -/
def WithSrcDBName (o : DbOptions σ) (srcDBName : String) : DbOptions σ :=
  { o with srcDBName := srcDBName }

/-- `WithSrcDBAddress` sets the source database address. -/
def WithSrcDBAddress (o : DbOptions σ) (srcDBAddress : String) : DbOptions σ :=
  { o with srcDBAddress := srcDBAddress }

/-- `WithSrcDBPort` sets the source database port. -/
def WithSrcDBPort (o : DbOptions σ) (srcDBPort : Int) : DbOptions σ :=
  { o with srcDBPort := srcDBPort }

end DbOptions

/-! ## The authenticated store

Modelled from the spec: the store implementation (entry log, Merkle tree,
reference index, sorted-set index, scan/history engine — spec.md §3, §4,
§6) is not among the provided sources; only its server test-suite is.
The model below follows the spec's words: an append-only entry log with
dense 1-based indices, a key→latest-index lookup over Raw/Structured
(and Reference) entries, transparent one-step reference resolution, a
sorted-set index ordered by `(score, memberKey)`, and CT-style
inclusion/consistency proofs with `OutOfRange` guards. -/

/-- Modelled from the spec: the value variants of an Entry, spec §3 —
`bytes | StructuredValue`, plus the Reference payload (target key) and the
Sorted member `{setName, score, memberKey}`.  The constructor is the
entry's `kind`. -/
inductive EntryValue where
  | raw (bytes : String)
  | structured (timestamp : Nat) (payload : String)
  | reference (targetKey : String)
  | sorted (setName : String) (score : Int) (memberKey : String)
  deriving DecidableEq, Repr

/-- Modelled from the spec: an Entry `{index, key, value, kind}`, spec §3;
immutable once appended, `index` assigned by the log at append time. -/
structure Entry where
  index : Nat
  key : String
  value : EntryValue
  deriving DecidableEq, Repr

/-- Modelled from the spec: error taxonomy, spec §7. -/
inductive Err where
  | notFound
  | outOfRange
  | invalidInput
  deriving DecidableEq, Repr

/-- Modelled from the spec: the store state is the append-only entry log,
spec §3 — the key→latest-index map and the indices are derived views. -/
structure Store where
  log : List Entry
  deriving DecidableEq, Repr

/-- Current count of appended entries (spec §4.1 `Size`). -/
def Store.size (st : Store) : Nat := st.log.length

/-- The empty store. -/
def emptyStore : Store := ⟨[]⟩

/-- Indices are dense and strictly increasing starting at 1 (spec §3):
the entry at log position `j` carries index `j + 1`. -/
def Wf (st : Store) : Prop :=
  st.log.map Entry.index = List.range' 1 st.log.length

/-- Append one entry, assigning the next index (spec §4.1 `Append`). -/
def appendEntry (st : Store) (k : String) (v : EntryValue) : Store × Nat :=
  let i := st.size + 1
  (⟨st.log ++ [⟨i, k, v⟩]⟩, i)

/-- `Set(key, value)` appends a Raw entry and returns its index
(spec §6 Write). -/
def setKV (st : Store) (k v : String) : Store × Nat :=
  appendEntry st k (.raw v)

/-- `SetSV(key, value)` appends a Structured entry (spec §3
StructuredValue, §6). -/
def setSV (st : Store) (k : String) (ts : Nat) (payload : String) :
    Store × Nat :=
  appendEntry st k (.structured ts payload)

/-- `ZAdd(set, score, key)` appends a Sorted entry (spec §4.4 `Add`). -/
def zadd (st : Store) (s : String) (score : Int) (mk : String) :
    Store × Nat :=
  appendEntry st mk (.sorted s score mk)

/-- An entry visible to by-key lookup and history: Raw, Structured or
Reference — Sorted entries live under composite keys of their own
(spec §3, §4.3). -/
def isData (e : Entry) : Bool :=
  match e.value with
  | .sorted _ _ _ => false
  | _ => true

/-- A plain data entry: Raw or Structured — what reference resolution
targets (spec §3 Reference: exactly one redirection, no chains). -/
def isPlain (e : Entry) : Bool :=
  match e.value with
  | .raw _ => true
  | .structured _ _ => true
  | _ => false

/-- Latest entry satisfying `p` (the log is in append order, so search
from the right). -/
def findLast (st : Store) (p : Entry → Bool) : Option Entry :=
  st.log.reverse.find? p

/-- Key→latest-index lookup (spec §3): the most recent data entry for `k`. -/
def findKey (st : Store) (k : String) : Option Entry :=
  findLast st (fun e => decide (e.key = k) && isData e)

/-- The most recent Raw/Structured entry for `k` — the target of
reference resolution. -/
def findPlainKey (st : Store) (k : String) : Option Entry :=
  findLast st (fun e => decide (e.key = k) && isPlain e)

/-- A read response: key, value and the index proofs refer to. -/
structure Item where
  key : String
  value : EntryValue
  index : Nat
  deriving DecidableEq, Repr

/-- `Get(key)` (spec §4.1 `GetByKey`, §4.3 read resolution): returns the
entry at the key's latest recorded index; an entry of kind Reference
transparently substitutes the target's current key/value, but the
returned index is the Reference entry's own; fails with `NotFound` if the
key was never written (or the reference target has no data entry). -/
def get (st : Store) (k : String) : Except Err Item :=
  match findKey st k with
  | none => .error .notFound
  | some e =>
    match e.value with
    | .reference tk =>
      match findPlainKey st tk with
      | none => .error .notFound
      | some t => .ok ⟨t.key, t.value, e.index⟩
    | v => .ok ⟨e.key, v, e.index⟩

/-- A structured read response (spec §3 StructuredValue). -/
structure SItem where
  key : String
  timestamp : Nat
  payload : String
  index : Nat
  deriving DecidableEq, Repr

/-- `GetSV(key)`: a `Get` whose resolved value must be a StructuredValue
(the structured envelope decodes the stored bytes). -/
def getSV (st : Store) (k : String) : Except Err SItem :=
  match get st k with
  | .error e => .error e
  | .ok it =>
    match it.value with
    | .structured ts p => .ok ⟨it.key, ts, p, it.index⟩
    | _ => .error .invalidInput

/-- `Reference(aliasKey, targetKey)` (spec §4.3 `SetReference`): appends a
Reference entry; fails with `NotFound` if `targetKey` has never been
written. -/
def reference (st : Store) (aliasKey targetKey : String) :
    Except Err (Store × Nat) :=
  match findPlainKey st targetKey with
  | none => .error .notFound
  | some _ => .ok (appendEntry st aliasKey (.reference targetKey))

/-- All entries ever written for `k`, oldest to newest (the log is in
append order). -/
def entriesFor (st : Store) (k : String) : List Entry :=
  st.log.filter (fun e => decide (e.key = k) && isData e)

/-- `History(key)` (spec §4.5): every entry ever written for `key`,
oldest to newest; fails with `NotFound` if the key has no recorded
entries. -/
def history (st : Store) (k : String) : Except Err (List Entry) :=
  if entriesFor st k = [] then .error .notFound else .ok (entriesFor st k)

/-! ### Merkle authentication tree (spec §4.2)

The hash function is kept symbolic: `Hash.leaf` is `H(entry.key ||
value-bytes)` and `Hash.node` is `H(left || right)`, a free construction
(injective, collision-free), which is what the proof-shape claims need. -/

/-- Modelled from the spec: symbolic digests, spec §3 Tree Node — leaf
digest `H(entry.key || entry.value-bytes)`, internal digest
`H(left.digest || right.digest)`. -/
inductive Hash where
  | leaf (key valueBytes : String)
  | node (l r : Hash)
  deriving DecidableEq, Repr

/-- The byte encoding of an entry value fed into the leaf hash. -/
def encodeValue : EntryValue → String
  | .raw b => b
  | .structured ts p => toString ts ++ "|" ++ p
  | .reference tk => tk
  | .sorted s sc mk => s ++ "|" ++ toString sc ++ "|" ++ mk

/-- The leaf digest of an entry (spec §3). -/
def leafHash (e : Entry) : Hash := .leaf e.key (encodeValue e.value)

/-- The leaf digests of the log, in order. -/
def leaves (st : Store) : List Hash := st.log.map leafHash

/-- The largest power of two strictly smaller than `n`, for `n ≥ 2` —
the split point of the certificate-transparency tree (spec §3: a strict
left-complete binary history tree). -/
def maxPow2Lt (n : Nat) : Nat := 2 ^ Nat.log2 (n - 1)

/-- Merkle tree hash of a list of leaves (first argument is recursion
fuel; the list length suffices): `MTH([h]) = h`,
`MTH(D[n]) = H(MTH(D[0:k]) || MTH(D[k:n]))` with `k` the largest power of
two below `n`. -/
def mth : Nat → List Hash → Hash
  | _, [] => .leaf "" ""
  | _, [h] => h
  | 0, h :: _ => h
  | fuel + 1, hs =>
    let k := maxPow2Lt hs.length
    .node (mth fuel (hs.take k)) (mth fuel (hs.drop k))

/-- The root digest at the current size (spec §4.2 `Root`). -/
def rootHash (st : Store) : Hash := mth st.size (leaves st)

/-- The audit path for the leaf at 0-based position `m` (spec §4.2
`InclusionProof`): walk from the leaf toward the root, including the
sibling subtree's digest at each level, recursing into the two unbalanced
child subtrees of the ragged right edge. -/
def auditPath : Nat → Nat → List Hash → List Hash
  | _, _, [] => []
  | _, _, [_] => []
  | 0, _, _ => []
  | fuel + 1, m, hs =>
    let k := maxPow2Lt hs.length
    if m < k then
      auditPath fuel m (hs.take k) ++ [mth hs.length (hs.drop k)]
    else
      auditPath fuel (m - k) (hs.drop k) ++ [mth hs.length (hs.take k)]

/-- The consistency subproof between sizes `m` and `hs.length` (spec §4.2
`ConsistencyProof`): decompose the size-`m` subtree boundary and collect
the minimal set of node digests. -/
def subproof : Nat → Nat → List Hash → Bool → List Hash
  | 0, _, _, _ => []
  | fuel + 1, m, hs, complete =>
    if m = hs.length then
      if complete then [] else [mth hs.length hs]
    else
      let k := maxPow2Lt hs.length
      if m ≤ k then
        subproof fuel m (hs.take k) complete ++ [mth hs.length (hs.drop k)]
      else
        subproof fuel (m - k) (hs.drop k) false ++ [mth hs.length (hs.take k)]

/-- An inclusion proof: the 1-based leaf index, the tree size it is
anchored to, the leaf digest and the audit path. -/
structure InclusionProof where
  index : Nat
  atSize : Nat
  leaf : Hash
  path : List Hash
  deriving DecidableEq, Repr

/-- `InclusionProof(leafIndex, atSize)` (spec §4.2): fails with
`OutOfRange` if the 1-based `leafIndex` is 0 or exceeds `atSize`, or if
`atSize` exceeds the current size. -/
def inclusionProofAt (st : Store) (i atSize : Nat) :
    Except Err InclusionProof :=
  if i = 0 ∨ atSize < i ∨ st.size < atSize then .error .outOfRange
  else
    let hs := (leaves st).take atSize
    .ok ⟨i, atSize, (leaves st).getD (i - 1) (.leaf "" ""),
         auditPath atSize (i - 1) hs⟩

/-- `Inclusion(index)` (spec §6 Proof): an inclusion proof against the
current size. -/
def inclusion (st : Store) (i : Nat) : Except Err InclusionProof :=
  inclusionProofAt st i st.size

/-- A consistency proof between two tree sizes. -/
structure ConsistencyProof where
  first : Nat
  second : Nat
  path : List Hash
  deriving DecidableEq, Repr

/-- `ConsistencyProof(firstSize, secondSize)` (spec §4.2): fails with
`OutOfRange` if `firstSize == 0`, `firstSize > secondSize`, or
`secondSize > currentSize`. -/
def consistencyProofAt (st : Store) (first second : Nat) :
    Except Err ConsistencyProof :=
  if first = 0 ∨ second < first ∨ st.size < second then .error .outOfRange
  else
    .ok ⟨first, second, subproof second first ((leaves st).take second) true⟩

/-- `Consistency(firstIndex)` (spec §6 Proof): a consistency proof
against the current size. -/
def consistency (st : Store) (first : Nat) : Except Err ConsistencyProof :=
  consistencyProofAt st first st.size

/-- The proof returned by a safe (proof-carrying) write: the new index
anchored to the new root (spec §2 data flow, §6 `SetWithProof`). -/
structure SetProof where
  index : Nat
  atSize : Nat
  leaf : Hash
  path : List Hash
  root : Hash
  deriving DecidableEq, Repr

/-- `SafeSet(key, value)` (spec §6 `SetWithProof`): a `Set` that also
returns a proof anchoring the new index to the new root. -/
def safeSet (st : Store) (k v : String) : Store × SetProof :=
  let (st1, i) := setKV st k v
  (st1,
   ⟨i, st1.size, .leaf k v, auditPath st1.size (i - 1) (leaves st1),
    rootHash st1⟩)

/-- A safe read response: the item plus an inclusion proof for its index
at the current size. -/
structure SafeItem where
  item : Item
  proof : InclusionProof
  deriving DecidableEq, Repr

/-- `SafeGet(key)` (spec §6 `GetWithProof`): a `Get` that also returns an
inclusion proof for the returned item's index. -/
def safeGet (st : Store) (k : String) : Except Err SafeItem :=
  match get st k with
  | .error e => .error e
  | .ok it =>
    .ok ⟨it, ⟨it.index, st.size, (leaves st).getD (it.index - 1) (.leaf "" ""),
              auditPath st.size (it.index - 1) (leaves st)⟩⟩

/-! ### Sorted-set index (spec §4.4) -/

/-- The members of sorted set `s`, in insertion order, as
`(score, memberKey)` pairs. -/
def zmembers (st : Store) (s : String) : List (Int × String) :=
  st.log.filterMap (fun e =>
    match e.value with
    | .sorted s' sc mk => if s' = s then some (sc, mk) else none
    | _ => none)

/-- The sorted-set ordering (spec §4.4): ascending score, ties broken by
member key lexicographically. -/
def zle (a b : Int × String) : Prop :=
  a.1 < b.1 ∨ (a.1 = b.1 ∧ a.2 ≤ b.2)

instance : DecidableRel zle := fun a b =>
  inferInstanceAs (Decidable (a.1 < b.1 ∨ (a.1 = b.1 ∧ a.2 ≤ b.2)))

instance : IsTotal (Int × String) zle := by
  constructor
  intro a b
  unfold zle
  rcases lt_trichotomy a.1 b.1 with h | h | h
  · exact Or.inl (Or.inl h)
  · rcases le_total a.2 b.2 with h2 | h2
    · exact Or.inl (Or.inr ⟨h, h2⟩)
    · exact Or.inr (Or.inr ⟨h.symm, h2⟩)
  · exact Or.inr (Or.inl h)

instance : IsTrans (Int × String) zle := by
  constructor
  intro a b c hab hbc
  unfold zle at hab hbc ⊢
  rcases hab with h1 | ⟨h1, h1'⟩ <;> rcases hbc with h2 | ⟨h2, h2'⟩
  · exact Or.inl (h1.trans h2)
  · exact Or.inl (by rw [← h2]; exact h1)
  · exact Or.inl (by rw [h1]; exact h2)
  · exact Or.inr ⟨h1.trans h2, h1'.trans h2'⟩

/-- Strictly-before test for the scan offset. -/
def zltB (a b : Int × String) : Bool :=
  decide (a.1 < b.1) || (decide (a.1 = b.1) && decide (a.2 < b.2))

/-- `Scan(setName, offset, limit, reverse)` (spec §4.4): up to `limit`
members starting strictly after the offset, ascending (descending if
`reverse`), ties broken by member key. -/
def zscan (st : Store) (s : String) (offset : Option (Int × String))
    (limit : Nat) (reverse : Bool) : List (Int × String) :=
  let ms := List.insertionSort zle (zmembers st s)
  let ms := if reverse then ms.reverse else ms
  let ms :=
    match offset with
    | none => ms
    | some o => ms.filter (fun m => if reverse then zltB m o else zltB o m)
  ms.take limit

/-! ### Concrete stores used by the witnesses -/

/-- The one-entry store `Set("Antoni", "Gaudi")` on the empty store. -/
def antoniStore : Store := (setKV emptyStore "Antoni" "Gaudi").1

/-- A sorted set `"S"` populated with scores 1, 3, 0. -/
def zaddStore : Store :=
  (zadd (zadd (zadd emptyStore "S" 1 "a").1 "S" 3 "b").1 "S" 0 "c").1

/-! ## Helper lemmas -/

theorem findLast_append (st : Store) (e : Entry) (p : Entry → Bool) :
    findLast ⟨st.log ++ [e]⟩ p = if p e then some e else findLast st p := by
  cases h : p e <;> simp [findLast, List.find?_cons, h]

theorem size_appendEntry (st : Store) (k : String) (v : EntryValue) :
    (appendEntry st k v).1.size = st.size + 1 := by
  simp [appendEntry, Store.size]

theorem log_appendEntry (st : Store) (k : String) (v : EntryValue) :
    (appendEntry st k v).1.log = st.log ++ [⟨st.size + 1, k, v⟩] := rfl

theorem findKey_snoc_hit (l : List Entry) (e : Entry) (k : String)
    (hk : e.key = k) (hd : isData e = true) :
    findKey ⟨l ++ [e]⟩ k = some e := by
  have : (decide (e.key = k) && isData e) = true := by simp [hk, hd]
  simp [findKey, findLast, List.find?_cons, this]

theorem findKey_snoc_miss (l : List Entry) (e : Entry) (k : String)
    (h : (decide (e.key = k) && isData e) = false) :
    findKey ⟨l ++ [e]⟩ k = findKey ⟨l⟩ k := by
  simp [findKey, findLast, List.find?_cons, h]

theorem findPlainKey_snoc_hit (l : List Entry) (e : Entry) (k : String)
    (hk : e.key = k) (hd : isPlain e = true) :
    findPlainKey ⟨l ++ [e]⟩ k = some e := by
  have : (decide (e.key = k) && isPlain e) = true := by simp [hk, hd]
  simp [findPlainKey, findLast, List.find?_cons, this]

theorem findPlainKey_snoc_miss (l : List Entry) (e : Entry) (k : String)
    (h : (decide (e.key = k) && isPlain e) = false) :
    findPlainKey ⟨l ++ [e]⟩ k = findPlainKey ⟨l⟩ k := by
  simp [findPlainKey, findLast, List.find?_cons, h]

theorem findKey_snoc2 (l : List Entry) (e1 e2 : Entry) (k : String) :
    findKey ⟨l ++ [e1, e2]⟩ k =
      if decide (e2.key = k) && isData e2 then some e2
      else if decide (e1.key = k) && isData e1 then some e1
      else findKey ⟨l⟩ k := by
  cases h2 : (decide (e2.key = k) && isData e2) <;>
    cases h1 : (decide (e1.key = k) && isData e1) <;>
      simp [findKey, findLast, List.find?_cons, h1, h2]

theorem findPlainKey_snoc2 (l : List Entry) (e1 e2 : Entry) (k : String) :
    findPlainKey ⟨l ++ [e1, e2]⟩ k =
      if decide (e2.key = k) && isPlain e2 then some e2
      else if decide (e1.key = k) && isPlain e1 then some e1
      else findPlainKey ⟨l⟩ k := by
  cases h2 : (decide (e2.key = k) && isPlain e2) <;>
    cases h1 : (decide (e1.key = k) && isPlain e1) <;>
      simp [findPlainKey, findLast, List.find?_cons, h1, h2]

theorem findKey_set (st : Store) (k v : String) :
    findKey (setKV st k v).1 k = some ⟨st.size + 1, k, .raw v⟩ := by
  simp [findKey, setKV, appendEntry, findLast_append, isData]

theorem get_set (st : Store) (k v : String) :
    get (setKV st k v).1 k = .ok ⟨k, .raw v, st.size + 1⟩ := by
  simp [get, findKey_set]

theorem findKey_setSV (st : Store) (k : String) (ts : Nat) (p : String) :
    findKey (setSV st k ts p).1 k = some ⟨st.size + 1, k, .structured ts p⟩ := by
  simp [findKey, setSV, appendEntry, findLast_append, isData]

theorem getSV_setSV (st : Store) (k : String) (ts : Nat) (p : String) :
    getSV (setSV st k ts p).1 k = .ok ⟨k, ts, p, st.size + 1⟩ := by
  simp [getSV, get, findKey_setSV]

theorem size_set (st : Store) (k v : String) :
    (setKV st k v).1.size = st.size + 1 :=
  size_appendEntry st k (.raw v)

theorem entriesFor_set_self (st : Store) (k v : String) :
    entriesFor (setKV st k v).1 k =
      entriesFor st k ++ [⟨st.size + 1, k, .raw v⟩] := by
  simp [entriesFor, setKV, appendEntry, List.filter_append, isData]

theorem entriesFor_indices (st : Store) (hwf : Wf st) (k : String) :
    ((entriesFor st k).map Entry.index).Pairwise (· < ·) := by
  have hsub : List.Sublist ((entriesFor st k).map Entry.index)
      (st.log.map Entry.index) := (List.filter_sublist _).map _
  rw [hwf] at hsub
  exact List.Pairwise.sublist hsub (List.pairwise_lt_range' 1 st.log.length)

/-! ## Claim theorems -/

/-- C1: for every key and value, after `Set(key, value)` returns index
`i`, a subsequent `Get(key)` (no intervening write) returns the same key,
the same value and the same index `i`. -/
theorem set_get_roundtrip (st : Store) (k v : String) :
    get (setKV st k v).1 k = .ok ⟨k, .raw v, (setKV st k v).2⟩ :=
  get_set st k v

/-- C2: for every store with current tree size `n`, the proof queries
reject out-of-range parameters: `Inclusion(0)` and `Inclusion(n+1)` fail
with `OutOfRange`, and `Consistency` with first size 0 fails with
`OutOfRange`; no proof is returned in these cases. -/
theorem proof_queries_out_of_range (st : Store) :
    inclusion st 0 = .error .outOfRange ∧
    inclusion st (st.size + 1) = .error .outOfRange ∧
    consistency st 0 = .error .outOfRange := by
  refine ⟨?_, ?_, ?_⟩ <;>
    simp [inclusion, inclusionProofAt, consistency, consistencyProofAt]

/-- C3: after `Reference(a, k)` on a store where `k` is written, `Get(a)`
returns the value last written to `k` at the time of dereferencing — the
target's entry before any further write, the fresh value after one — and
the index returned with it is the Reference entry's own index. -/
theorem reference_get_alias (st : Store) (a k : String) (t : Entry)
    (h : findPlainKey st k = some t) (hak : a ≠ k) :
    ∀ st1 r, reference st a k = .ok (st1, r) →
      r = st.size + 1 ∧
      get st1 a = .ok ⟨t.key, t.value, r⟩ ∧
      ∀ v2, get (setKV st1 k v2).1 a = .ok ⟨k, .raw v2, r⟩ := by
  obtain ⟨l⟩ := st
  intro st1 r hr
  simp only [reference, h, appendEntry, Except.ok.injEq, Prod.mk.injEq] at hr
  obtain ⟨rfl, rfl⟩ := hr
  have hk1 : findKey ⟨l ++ [⟨Store.size ⟨l⟩ + 1, a, .reference k⟩]⟩ a =
      some ⟨Store.size ⟨l⟩ + 1, a, .reference k⟩ :=
    findKey_snoc_hit _ _ _ rfl rfl
  have hp1 : findPlainKey ⟨l ++ [⟨Store.size ⟨l⟩ + 1, a, .reference k⟩]⟩ k =
      some t := by
    rw [findPlainKey_snoc_miss _ _ _ (by simp [isPlain])]
    exact h
  refine ⟨rfl, ?_, ?_⟩
  · simp [get, hk1, hp1]
  · intro v2
    have hk2 : findKey
        ⟨l ++ [⟨Store.size ⟨l⟩ + 1, a, .reference k⟩,
          ⟨Store.size ⟨l ++ [⟨Store.size ⟨l⟩ + 1, a, .reference k⟩]⟩ + 1, k,
            .raw v2⟩]⟩ a =
        some ⟨Store.size ⟨l⟩ + 1, a, .reference k⟩ := by
      rw [findKey_snoc2]
      simp [isData, Ne.symm hak]
    have hp2 : findPlainKey
        ⟨l ++ [⟨Store.size ⟨l⟩ + 1, a, .reference k⟩,
          ⟨Store.size ⟨l ++ [⟨Store.size ⟨l⟩ + 1, a, .reference k⟩]⟩ + 1, k,
            .raw v2⟩]⟩ k =
        some ⟨Store.size ⟨l ++ [⟨Store.size ⟨l⟩ + 1, a, .reference k⟩]⟩ + 1, k,
          .raw v2⟩ := by
      rw [findPlainKey_snoc2]
      simp [isPlain]
    simp [setKV, appendEntry, get, hk2, hp2]

/-- C4: `History(key)` returns every entry ever written for the key,
oldest to newest with distinct monotonically increasing indices (three
writes append exactly 3 entries), and fails with `NotFound` if the key
has no recorded entries. -/
theorem history_spec (st : Store) (k : String) (hwf : Wf st) :
    (history st k = .error .notFound ↔ entriesFor st k = []) ∧
    (∀ l, history st k = .ok l →
        l = entriesFor st k ∧ (l.map Entry.index).Pairwise (· < ·)) ∧
    (∀ v1 v2 v3,
        history (setKV (setKV (setKV st k v1).1 k v2).1 k v3).1 k =
          .ok (entriesFor st k ++
            [⟨st.size + 1, k, .raw v1⟩, ⟨st.size + 2, k, .raw v2⟩,
             ⟨st.size + 3, k, .raw v3⟩])) := by
  refine ⟨?_, ?_, ?_⟩
  · unfold history
    split
    next h => simp [h]
    next h => simp [h]
  · intro l hl
    unfold history at hl
    split at hl
    · exact absurd hl (by simp)
    next h =>
      obtain rfl : entriesFor st k = l := by simpa using hl
      exact ⟨rfl, entriesFor_indices st hwf k⟩
  · intro v1 v2 v3
    have e3 : entriesFor (setKV (setKV (setKV st k v1).1 k v2).1 k v3).1 k =
        entriesFor st k ++
          [⟨st.size + 1, k, .raw v1⟩, ⟨st.size + 2, k, .raw v2⟩,
           ⟨st.size + 3, k, .raw v3⟩] := by
      simp [entriesFor_set_self, size_set]
    unfold history
    rw [e3]
    simp

/-- C5: a successful `SafeSet` returns a proof, and the index carried by
that proof equals the index a subsequent `SafeGet` of the same key
reports for the stored item. -/
theorem safeSet_proof_index (st : Store) (k v : String) :
    (safeSet st k v).2.index = st.size + 1 ∧
    (safeGet (safeSet st k v).1 k).toOption.map (fun r => r.item.index) =
      some ((safeSet st k v).2.index) := by
  refine ⟨rfl, ?_⟩
  have h1 : (safeSet st k v).1 = (setKV st k v).1 := rfl
  rw [h1]
  simp [safeGet, get_set]
  exact ⟨_, rfl, rfl⟩

/-- C6: a forward scan from the empty offset with a sufficient limit
returns the set's members ordered by ascending score, ties broken by
member key lexicographically (and is a permutation of the members). -/
theorem zscan_sorted_perm (st : Store) (s : String) (limit : Nat)
    (h : (zmembers st s).length ≤ limit) :
    List.Sorted zle (zscan st s none limit false) ∧
    List.Perm (zscan st s none limit false) (zmembers st s) := by
  have hlen : (List.insertionSort zle (zmembers st s)).length ≤ limit := by
    rw [List.length_insertionSort]
    exact h
  have htake : zscan st s none limit false =
      List.insertionSort zle (zmembers st s) := by
    simp only [zscan, if_neg Bool.false_ne_true, Bool.false_eq_true,
      ite_false]
    exact List.take_of_length_le hlen
  rw [htake]
  exact ⟨List.sorted_insertionSort zle _, List.perm_insertionSort zle _⟩

/-- C7: for every key and structured value, after `SetSV(key, value)`
returns index `i`, `GetSV(key)` returns an item with the same key,
timestamp, payload and index `i`. -/
theorem setSV_getSV_roundtrip (st : Store) (k : String) (ts : Nat)
    (p : String) :
    getSV (setSV st k ts p).1 k = .ok ⟨k, ts, p, (setSV st k ts p).2⟩ :=
  getSV_setSV st k ts p

/-- C8: the DbOptions setter/getter pairs round-trip, and since each
setter hands back the (updated) receiver, calls chain — a chain of four
setters accumulates all four updates. -/
theorem dboptions_set_get (σ : Type) (o : DbOptions σ) (n p : String)
    (c : Bool) (so : σ) :
    (o.WithDbName n).GetDbName = n ∧
    (o.WithDbRootPath p).GetDbRootPath = p ∧
    (o.WithCorruptionChecker c).GetCorruptionChecker = c ∧
    (o.WithStoreOptions so).GetStoreOptions = so ∧
    ((((o.WithDbName n).WithDbRootPath p).WithCorruptionChecker
        c).WithStoreOptions so) =
      { o with dbName := n, dbRootPath := p, corruptionChecker := c,
               storeOpts := so } :=
  ⟨rfl, rfl, rfl, rfl, rfl⟩

/-- C9: `DefaultOption()` returns dbRootPath "./data", dbName "db_name",
storeOpts = store.DefaultOptions() (the `storeDefault` parameter), and
zero values everywhere else. -/
theorem defaultOption_fields (σ : Type) (storeDefault : σ) :
    (DefaultOption storeDefault).dbRootPath = "./data" ∧
    (DefaultOption storeDefault).dbName = "db_name" ∧
    (DefaultOption storeDefault).storeOpts = storeDefault ∧
    (DefaultOption storeDefault).corruptionChecker = false ∧
    (DefaultOption storeDefault).replica = false ∧
    (DefaultOption storeDefault).srcDBName = "" ∧
    (DefaultOption storeDefault).srcDBAddress = "" ∧
    (DefaultOption storeDefault).srcDBPort = 0 :=
  ⟨rfl, rfl, rfl, rfl, rfl, rfl, rfl, rfl⟩

/-- C10: every DbOptions setter modifies only its own field and leaves
the rest unchanged. -/
theorem dboptions_frame (σ : Type) (o : DbOptions σ) (n p sn sa : String)
    (c r : Bool) (so : σ) (sp : Int) :
    ((o.WithDbName n).dbRootPath = o.dbRootPath ∧
     (o.WithDbName n).storeOpts = o.storeOpts ∧
     (o.WithDbName n).corruptionChecker = o.corruptionChecker ∧
     (o.WithDbName n).replica = o.replica ∧
     (o.WithDbName n).srcDBName = o.srcDBName ∧
     (o.WithDbName n).srcDBAddress = o.srcDBAddress ∧
     (o.WithDbName n).srcDBPort = o.srcDBPort) ∧
    ((o.WithDbRootPath p).dbName = o.dbName ∧
     (o.WithDbRootPath p).storeOpts = o.storeOpts ∧
     (o.WithDbRootPath p).corruptionChecker = o.corruptionChecker ∧
     (o.WithDbRootPath p).replica = o.replica ∧
     (o.WithDbRootPath p).srcDBName = o.srcDBName ∧
     (o.WithDbRootPath p).srcDBAddress = o.srcDBAddress ∧
     (o.WithDbRootPath p).srcDBPort = o.srcDBPort) ∧
    ((o.WithCorruptionChecker c).dbName = o.dbName ∧
     (o.WithCorruptionChecker c).dbRootPath = o.dbRootPath ∧
     (o.WithCorruptionChecker c).storeOpts = o.storeOpts ∧
     (o.WithCorruptionChecker c).replica = o.replica ∧
     (o.WithCorruptionChecker c).srcDBName = o.srcDBName ∧
     (o.WithCorruptionChecker c).srcDBAddress = o.srcDBAddress ∧
     (o.WithCorruptionChecker c).srcDBPort = o.srcDBPort) ∧
    ((o.WithStoreOptions so).dbName = o.dbName ∧
     (o.WithStoreOptions so).dbRootPath = o.dbRootPath ∧
     (o.WithStoreOptions so).corruptionChecker = o.corruptionChecker ∧
     (o.WithStoreOptions so).replica = o.replica ∧
     (o.WithStoreOptions so).srcDBName = o.srcDBName ∧
     (o.WithStoreOptions so).srcDBAddress = o.srcDBAddress ∧
     (o.WithStoreOptions so).srcDBPort = o.srcDBPort) ∧
    ((o.AsReplica r).dbName = o.dbName ∧
     (o.AsReplica r).dbRootPath = o.dbRootPath ∧
     (o.AsReplica r).storeOpts = o.storeOpts ∧
     (o.AsReplica r).corruptionChecker = o.corruptionChecker ∧
     (o.AsReplica r).srcDBName = o.srcDBName ∧
     (o.AsReplica r).srcDBAddress = o.srcDBAddress ∧
     (o.AsReplica r).srcDBPort = o.srcDBPort) ∧
    ((o.WithSrcDBName sn).dbName = o.dbName ∧
     (o.WithSrcDBName sn).dbRootPath = o.dbRootPath ∧
     (o.WithSrcDBName sn).storeOpts = o.storeOpts ∧
     (o.WithSrcDBName sn).corruptionChecker = o.corruptionChecker ∧
     (o.WithSrcDBName sn).replica = o.replica ∧
     (o.WithSrcDBName sn).srcDBAddress = o.srcDBAddress ∧
     (o.WithSrcDBName sn).srcDBPort = o.srcDBPort) ∧
    ((o.WithSrcDBAddress sa).dbName = o.dbName ∧
     (o.WithSrcDBAddress sa).dbRootPath = o.dbRootPath ∧
     (o.WithSrcDBAddress sa).storeOpts = o.storeOpts ∧
     (o.WithSrcDBAddress sa).corruptionChecker = o.corruptionChecker ∧
     (o.WithSrcDBAddress sa).replica = o.replica ∧
     (o.WithSrcDBAddress sa).srcDBName = o.srcDBName ∧
     (o.WithSrcDBAddress sa).srcDBPort = o.srcDBPort) ∧
    ((o.WithSrcDBPort sp).dbName = o.dbName ∧
     (o.WithSrcDBPort sp).dbRootPath = o.dbRootPath ∧
     (o.WithSrcDBPort sp).storeOpts = o.storeOpts ∧
     (o.WithSrcDBPort sp).corruptionChecker = o.corruptionChecker ∧
     (o.WithSrcDBPort sp).replica = o.replica ∧
     (o.WithSrcDBPort sp).srcDBName = o.srcDBName ∧
     (o.WithSrcDBPort sp).srcDBAddress = o.srcDBAddress) := by
  refine ⟨⟨rfl, rfl, rfl, rfl, rfl, rfl, rfl⟩,
    ⟨rfl, rfl, rfl, rfl, rfl, rfl, rfl⟩,
    ⟨rfl, rfl, rfl, rfl, rfl, rfl, rfl⟩,
    ⟨rfl, rfl, rfl, rfl, rfl, rfl, rfl⟩,
    ⟨rfl, rfl, rfl, rfl, rfl, rfl, rfl⟩,
    ⟨rfl, rfl, rfl, rfl, rfl, rfl, rfl⟩,
    ⟨rfl, rfl, rfl, rfl, rfl, rfl, rfl⟩,
    ⟨rfl, rfl, rfl, rfl, rfl, rfl, rfl⟩⟩

/-! ## Witnesses -/

/-- Witness for C3 at the concrete store `Set("Antoni", "Gaudi")`,
alias `"tag"`. -/
theorem reference_get_alias_witness :
    findPlainKey antoniStore "Antoni" = some ⟨1, "Antoni", .raw "Gaudi"⟩ ∧
    "tag" ≠ "Antoni" ∧
    (∀ st1 r, reference antoniStore "tag" "Antoni" = .ok (st1, r) →
      r = antoniStore.size + 1 ∧
      get st1 "tag" = .ok ⟨"Antoni", .raw "Gaudi", r⟩ ∧
      ∀ v2, get (setKV st1 "Antoni" v2).1 "tag" =
        .ok ⟨"Antoni", .raw v2, r⟩) :=
  ⟨rfl, by decide,
   reference_get_alias antoniStore "tag" "Antoni"
     ⟨1, "Antoni", .raw "Gaudi"⟩ rfl (by decide)⟩

/-- Witness for C4 at the concrete store `Set("Antoni", "Gaudi")`. -/
theorem history_spec_witness :
    Wf antoniStore ∧
    ((history antoniStore "Antoni" = .error .notFound ↔
        entriesFor antoniStore "Antoni" = []) ∧
     (∀ l, history antoniStore "Antoni" = .ok l →
        l = entriesFor antoniStore "Antoni" ∧
        (l.map Entry.index).Pairwise (· < ·)) ∧
     (∀ v1 v2 v3,
        history (setKV (setKV (setKV antoniStore "Antoni" v1).1
            "Antoni" v2).1 "Antoni" v3).1 "Antoni" =
          .ok (entriesFor antoniStore "Antoni" ++
            [⟨antoniStore.size + 1, "Antoni", .raw v1⟩,
             ⟨antoniStore.size + 2, "Antoni", .raw v2⟩,
             ⟨antoniStore.size + 3, "Antoni", .raw v3⟩]))) :=
  ⟨rfl, history_spec antoniStore "Antoni" rfl⟩

/-- Witness for C6 at the concrete sorted set with scores 1, 3, 0. -/
theorem zscan_sorted_perm_witness :
    (zmembers zaddStore "S").length ≤ 3 ∧
    (List.Sorted zle (zscan zaddStore "S" none 3 false) ∧
     List.Perm (zscan zaddStore "S" none 3 false) (zmembers zaddStore "S")) :=
  ⟨by decide, zscan_sorted_perm zaddStore "S" 3 (by decide)⟩

end Immudb
